import Mathlib

/-!
Verification of the `#[pymodule]` derive pass of RustPython
(src/derive/src/pymodule.rs): the annotation-parsing, item-classification,
registry, declaration-walking and code-emission pipeline is embedded below
as executable Lean definitions, and the stated properties of the pass are
settled as theorems about those definitions.
-/

set_option autoImplicit false
set_option maxRecDepth 4000

namespace PyModule

/-- Source location token. Diagnostics are anchored to spans; spans are
modelled as opaque numeric tokens. -/
abbrev Span := Nat

/-- Modelled from the spec: the record of the external diagnostic utility
(`super::Diagnostic`, not under src/) — an error anchored to a source
location, carrying a human-readable message. -/
structure Diagnostic where
  span : Span
  msg : String
  deriving DecidableEq, Repr

/-- An argument node of an annotation (`syn::NestedMeta`). Per the spec's
data model, argument nodes are name/value pairs or bare literals. -/
inductive NestedMeta where
  | nameValue (name : String) (value : String)
  | lit (value : String)
  deriving DecidableEq, Repr

/-- A structured annotation (`syn::Meta`): a bare path, a path with a
parenthesized argument list, or a path with an `= value` form. Structural
equality ignores source spans, as `syn`'s equality does, so spans are not
stored on `Meta` nodes (they are carried on `Attribute` below). -/
inductive Meta where
  | path (segs : List String)
  | list (segs : List String) (nested : List NestedMeta)
  | nameValue (segs : List String) (lit : String)
  deriving DecidableEq, Repr

/-- `Meta::path()`: the path of any of the three forms. -/
def Meta.getPath : Meta → List String
  | .path segs => segs
  | .list segs _ => segs
  | .nameValue segs _ => segs

/-- `Path::get_ident()`: a single-segment path is an identifier. -/
def Meta.getIdent (m : Meta) : Option String :=
  match m.getPath with
  | [s] => some s
  | _ => none

/-- `meta_to_vec` (src/derive/src/pymodule.rs, lines 8-14): a bare path
yields no arguments, a list yields its arguments verbatim, and a name/value
form is rejected with the offending meta. -/
def meta_to_vec : Meta → Except Meta (List NestedMeta)
  | .path _ => .ok []
  | .list _ nested => .ok nested
  | .nameValue segs lit => .error (.nameValue segs lit)

/-- `ModuleItem` (lines 21-26): the typed intermediate item. -/
inductive ModuleItem where
  | Function (item_ident : String) (py_name : String)
  | EvaluatedAttr (item_ident : String) (py_name : String)
  | Class (item_ident : String) (py_name : String)
  deriving DecidableEq, Repr

/-- `ModuleItem::name` (lines 28-37). -/
def ModuleItem.name : ModuleItem → String
  | .Function _ py_name => py_name
  | .EvaluatedAttr _ py_name => py_name
  | .Class _ py_name => py_name

/-- The registry key: (external name, cfg guard list). -/
abbrev ModuleKey := String × List Meta

/-- `Module` (lines 16-19): the item registry keyed by (external name,
cfgs). The underlying `std::collections::HashMap` is modelled as an
association list with at most one binding per key; the list order is one
possible iteration order (the real `HashMap` order is unspecified and
seeded per process — see the emission theorems). -/
structure Module where
  items : List (ModuleKey × ModuleItem)
  deriving DecidableEq, Repr

/-- `HashMap::insert`: replace any existing binding of the key, returning
the previous value bound to it, if any. -/
def insertKV : List (ModuleKey × ModuleItem) → ModuleKey → ModuleItem →
    Option ModuleItem × List (ModuleKey × ModuleItem)
  | [], k, v => (none, [(k, v)])
  | p :: rest, k, v =>
    if p.1 = k then (some p.2, (k, v) :: rest)
    else
      let r := insertKV rest k v
      (r.1, p :: r.2)

/-- Association-list lookup, for stating registry properties. -/
def lookupKV : List (ModuleKey × ModuleItem) → ModuleKey → Option ModuleItem
  | [], _ => none
  | p :: rest, k => if p.1 = k then some p.2 else lookupKV rest k

/-- `HashMap::get`-style view of the registry. -/
def Module.lookup (m : Module) (k : ModuleKey) : Option ModuleItem :=
  lookupKV m.items k

/-- `Module::add_item` (lines 40-57): insert under key
`(item.name(), cfgs)`. The insertion happens unconditionally
(`HashMap::insert`); when a previous binding existed, the call reports a
duplicate diagnostic at `span` naming the previously stored item. The
updated registry is returned together with the optional diagnostic. -/
def Module.add_item (m : Module) (item : ModuleItem) (cfgs : List Meta) (span : Span) :
    Module × Option Diagnostic :=
  let r := insertKV m.items (item.name, cfgs) item
  match r.1 with
  | some existing =>
    (⟨r.2⟩, some ⟨span, "Duplicate #[py*] attribute on pymodule: " ++ existing.name⟩)
  | none => (⟨r.2⟩, none)

namespace ItemMeta

/-- `ItemMeta::SIMPLE_NAMES`. Modelled from the spec (ItemMeta lives in
src/derive/src/util.rs, which is not under src/): the "simple name"
recognized-argument set — zero or one optional explicit-name argument. -/
def SIMPLE_NAMES : List String := ["name"]

/-- `ItemMeta::STRUCT_SEQUENCE_NAMES`. Modelled from the spec: the
"struct-sequence name" set — the simple-name argument plus an additional
optional naming-convention argument legal only for struct-sequence
bindings. -/
def STRUCT_SEQUENCE_NAMES : List String := ["name", "convention"]

/-- Modelled from the spec: `ItemMeta::from_nested_meta` followed by
`ItemMeta::simple_name` (src/derive/src/util.rs, not under src/) — validate
the argument list against the declared recognized-argument set and resolve
the final external name: the explicit `name` override when given, else the
declaration identifier. -/
def resolve_name (attrName : String) (ident : String) (nesteds : List NestedMeta)
    (allowed : List String) : Except Diagnostic String :=
  if nesteds.all (fun n =>
      match n with
      | .nameValue k _ => decide (k ∈ allowed)
      | .lit _ => false) then
    match nesteds.findSome? (fun n =>
        match n with
        | .nameValue k v => if k = "name" then some v else none
        | .lit _ => none) with
    | some v => .ok v
    | none => .ok ident
  else
    .error ⟨0, "unknown arguments for " ++ attrName⟩

end ItemMeta

/-- `Module::extract_function` (lines 59-74). -/
def Module.extract_function (ident : String) (meta : Meta) : Except Diagnostic ModuleItem :=
  match meta_to_vec meta with
  | .error _ =>
    .error ⟨0, "#[pyfunction = \"...\"] cannot be a name/value, you probably meant #[pyfunction(name = \"...\")]"⟩
  | .ok nesteds =>
    match ItemMeta.resolve_name "pyfunction" ident nesteds ItemMeta.SIMPLE_NAMES with
    | .error d => .error d
    | .ok py_name => .ok (.Function ident py_name)

/-- `Module::extract_class` (lines 76-91). -/
def Module.extract_class (ident : String) (meta : Meta) : Except Diagnostic ModuleItem :=
  match meta_to_vec meta with
  | .error _ =>
    .error ⟨0, "#[pyclass = \"...\"] cannot be a name/value, you probably meant #[pyclass(name = \"...\")]"⟩
  | .ok nesteds =>
    match ItemMeta.resolve_name "pyclass" ident nesteds ItemMeta.SIMPLE_NAMES with
    | .error d => .error d
    | .ok py_name => .ok (.Class ident py_name)

/-- `Module::extract_struct_sequence` (lines 93-112). -/
def Module.extract_struct_sequence (ident : String) (meta : Meta) : Except Diagnostic ModuleItem :=
  match meta_to_vec meta with
  | .error _ =>
    .error ⟨0, "#[pystruct_sequence = \"...\"] cannot be a name/value, you probably meant #[pystruct_sequence(name = \"...\")]"⟩
  | .ok nesteds =>
    match ItemMeta.resolve_name "pystruct_sequence" ident nesteds ItemMeta.STRUCT_SEQUENCE_NAMES with
    | .error d => .error d
    | .ok py_name => .ok (.Class ident py_name)

/-- `Module::extract_attr` (lines 114-129). -/
def Module.extract_attr (ident : String) (meta : Meta) : Except Diagnostic ModuleItem :=
  match meta_to_vec meta with
  | .error _ =>
    .error ⟨0, "#[pyattr = \"...\"] cannot be a name/value, you probably meant #[pyattr(name = \"...\")]"⟩
  | .ok nesteds =>
    match ItemMeta.resolve_name "pyattr" ident nesteds ItemMeta.SIMPLE_NAMES with
    | .error d => .error d
    | .ok py_name => .ok (.EvaluatedAttr ident py_name)

/-- A raw attribute on a declaration (`syn::Attribute`): `parse_meta` may
fail, which is modelled by `parsedMeta = none`; `span` is the attribute's
source span, which `meta.span()` reports for the parsed meta. -/
structure Attribute where
  parsedMeta : Option Meta
  span : Span
  deriving DecidableEq, Repr

/-- `ItemType` (declared in src/derive/src/util.rs; the three values used
by src/derive/src/pymodule.rs). -/
inductive ItemType where
  | Fn
  | Struct
  | Enum
  deriving DecidableEq, Repr

/-- `ItemIdent` (declared in src/derive/src/util.rs, shape evident from its
uses in src/derive/src/pymodule.rs): kind tag, attribute list (mutably
borrowed from the declaration), and the declaration identifier. -/
structure ItemIdent where
  typ : ItemType
  attrs : List Attribute
  ident : String
  deriving DecidableEq, Repr

/-- The walker's meta stream (lines 135-139):
`item.attrs.iter().filter_map(|attr| attr.parse_meta().ok())`, each parsed
meta paired with its span. Note the enumeration applied to this stream
skips unparseable attributes, so the ordinals are positions in the
filtered stream, not in `item.attrs`. -/
def parsedMetas (attrs : List Attribute) : List (Meta × Span) :=
  attrs.filterMap (fun a => a.parsedMeta.map (fun m => (m, a.span)))

/-- What processing one parsed annotation triggers: one arm of the match on
the annotation name in `Module::extract_item_from_syn` (lines 146-172). -/
inductive MetaAction where
  | consume (item : ModuleItem)
  | classItem (item : ModuleItem)
  | guard (m : Meta)
  | skip
  | err (d : Diagnostic)
  | panicked
  deriving DecidableEq, Repr

/-- The match on the annotation name (lines 142-172): `pyfunction` and
`pyattr` assert a function declaration, record the ordinal as consumed and
extract; `pyclass` and `pystruct_sequence` assert a struct declaration and
extract without recording the ordinal; `cfg` accumulates a guard; anything
else (including multi-segment paths) is skipped. A failed `assert!` is a
panic. -/
def classifyMeta (typ : ItemType) (ident : String) (meta : Meta) : MetaAction :=
  match meta.getIdent with
  | none => .skip
  | some name =>
    if name = "pyfunction" then
      if typ = ItemType.Fn then
        match Module.extract_function ident meta with
        | .ok item => .consume item
        | .error d => .err d
      else .panicked
    else if name = "pyattr" then
      if typ = ItemType.Fn then
        match Module.extract_attr ident meta with
        | .ok item => .consume item
        | .error d => .err d
      else .panicked
    else if name = "pyclass" then
      if typ = ItemType.Struct then
        match Module.extract_class ident meta with
        | .ok item => .classItem item
        | .error d => .err d
      else .panicked
    else if name = "pystruct_sequence" then
      if typ = ItemType.Struct then
        match Module.extract_struct_sequence ident meta with
        | .ok item => .classItem item
        | .error d => .err d
      else .panicked
    else if name = "cfg" then .guard meta
    else .skip

/-- Result of the scanning loop of `extract_item_from_syn`. -/
inductive ScanOut where
  | ok (attr_idxs : List Nat) (items : List (ModuleItem × Span)) (cfgs : List Meta)
  | err (d : Diagnostic)
  | panicked
  deriving DecidableEq, Repr

/-- The first loop of `Module::extract_item_from_syn` (lines 132-173): walk
the enumerated parsed annotations in order, accumulating consumed ordinals,
extracted items and cfg guards; an extraction error aborts the scan
immediately (the `?` operator), and a failed kind assertion panics. -/
def scanLoop (typ : ItemType) (ident : String) : List (Nat × Meta × Span) → ScanOut
  | [] => .ok [] [] []
  | (i, meta, sp) :: rest =>
    match classifyMeta typ ident meta with
    | .panicked => .panicked
    | .err d => .err d
    | .skip => scanLoop typ ident rest
    | .guard g =>
      match scanLoop typ ident rest with
      | .ok idxs items cfgs => .ok idxs items (g :: cfgs)
      | r => r
    | .consume item =>
      match scanLoop typ ident rest with
      | .ok idxs items cfgs => .ok (i :: idxs) ((item, sp) :: items) cfgs
      | r => r
    | .classItem item =>
      match scanLoop typ ident rest with
      | .ok idxs items cfgs => .ok idxs ((item, sp) :: items) cfgs
      | r => r

/-- The scan of one declaration's annotations, exactly as
`extract_item_from_syn` runs it: over the enumerated filtered stream. -/
def scanItem (item : ItemIdent) : ScanOut :=
  scanLoop item.typ item.ident (parsedMetas item.attrs).enum

/-- The insertion loop (lines 174-176): add every extracted item with the
declaration's accumulated cfg list; a duplicate diagnostic aborts the loop
(the `?` operator) with the registry mutation already applied. -/
def addLoop (m : Module) (cfgs : List Meta) : List (ModuleItem × Span) →
    Module × Option Diagnostic
  | [] => (m, none)
  | (item, sp) :: rest =>
    let r := m.add_item item cfgs sp
    match r.2 with
    | some d => (r.1, some d)
    | none => addLoop r.1 cfgs rest

/-- The `Vec::retain` closure of `extract_item_from_syn` (lines 177-186):
walking positions from `i`, drop the element whose position is the next
entry of `attr_idxs`; returns the kept elements and the unmatched remainder
of `attr_idxs`. -/
def retainDrop : List Attribute → Nat → List Nat → List Attribute × List Nat
  | [], _, idxs => ([], idxs)
  | a :: rest, i, idxs =>
    if idxs.head? = some i then
      retainDrop rest (i + 1) idxs.tail
    else
      let r := retainDrop rest (i + 1) idxs
      (a :: r.1, r.2)

/-- `Vec::remove` at an index. `Vec::remove` panics out of range; this
total model leaves the list unchanged there, which is only reached through
the trailing cleanup loop whose remainder is empty for every index list the
scan produces. -/
def removeAt (l : List Attribute) (n : Nat) : List Attribute :=
  l.take n ++ l.drop (n + 1)

/-- The trailing cleanup loop (lines 187-189):
`for (i, idx) in attr_idxs.iter().enumerate(): attrs.remove(idx - i)`. -/
def removeLoop (attrs : List Attribute) (idxs : List Nat) : List Attribute :=
  idxs.enum.foldl (fun acc p => removeAt acc (p.2 - p.1)) attrs

/-- Status of one `extract_item_from_syn` call. -/
inductive ExtractStatus where
  | ok
  | err (d : Diagnostic)
  | panicked
  deriving DecidableEq, Repr

/-- Result of one `extract_item_from_syn` call: the status together with
the registry and the declaration's attribute list as left by the call (both
are mutated through `&mut` in the source, so they are returned explicitly;
errors propagate with the mutations applied so far). -/
structure ExtractResult where
  status : ExtractStatus
  module : Module
  attrs : List Attribute
  deriving DecidableEq, Repr

/-- `Module::extract_item_from_syn` (lines 131-191): scan the declaration's
parsed annotations, insert the extracted items, then strip the consumed
ordinals from the attribute list. An annotation-level error or a duplicate
error returns early — in particular the attribute list is never stripped on
any error path. -/
def Module.extract_item_from_syn (m : Module) (item : ItemIdent) : ExtractResult :=
  match scanItem item with
  | .panicked => ⟨.panicked, m, item.attrs⟩
  | .err d => ⟨.err d, m, item.attrs⟩
  | .ok attr_idxs items cfgs =>
    let r := addLoop m cfgs items
    match r.2 with
    | some d => ⟨.err d, r.1, item.attrs⟩
    | none =>
      let s := retainDrop item.attrs 0 attr_idxs
      ⟨.ok, r.1, removeLoop s.1 s.2⟩

/-- The shape of one emitted registration statement (lines 206-246): the
guard list reproduced verbatim, the target attribute name, and the
installed value expression. -/
inductive EmittedValue where
  | newFunctionNamed (item_ident : String) (module_name : String) (py_name : String)
  | newPyObj (item_ident : String)
  | makeClass (item_ident : String)
  deriving DecidableEq, Repr

/-- One `vm.__module_set_attr(&module, py_name, value)` statement preceded
by its cfg guards. -/
structure RegStmt where
  cfgs : List Meta
  py_name : String
  value : EmittedValue
  deriving DecidableEq, Repr

/-- The per-entry arm of the emission map in `extract_module_items`
(lines 206-246). -/
def emitItem (module_name : String) : ModuleKey × ModuleItem → RegStmt
  | ((_, cfgs), .Function item_ident py_name) =>
    ⟨cfgs, py_name, .newFunctionNamed item_ident module_name py_name⟩
  | ((_, cfgs), .EvaluatedAttr item_ident py_name) =>
    ⟨cfgs, py_name, .newPyObj item_ident⟩
  | ((_, cfgs), .Class item_ident py_name) =>
    ⟨cfgs, py_name, .makeClass item_ident⟩

/-- Emission over the registry entries in a given iteration order. The
source iterates `module.items.into_iter()` — a `HashMap` whose iteration
order the code does not pin down — so the order is an explicit argument
here. -/
def emitAll (module_name : String) (seq : List (ModuleKey × ModuleItem)) : List RegStmt :=
  seq.map (emitItem module_name)

/-- The declaration walk of `extract_module_items` (lines 198-204):
`push_diag_result!` (modelled from the spec, the macro lives outside src/:
an erroring declaration's diagnostic is appended to the running list and
the walk continues) over `extract_item_from_syn`; `none` models a panic
aborting the whole invocation. Returns the final registry, the collected
diagnostics in order, and the declarations with their attribute lists as
left by the walk. -/
def walkItems (m : Module) (diags : List Diagnostic) :
    List ItemIdent → Option (Module × List Diagnostic × List ItemIdent)
  | [] => some (m, diags, [])
  | item :: rest =>
    let r := m.extract_item_from_syn item
    match r.status with
    | .panicked => none
    | .ok =>
      (walkItems r.module diags rest).map
        (fun t => (t.1, t.2.1, ⟨item.typ, r.attrs, item.ident⟩ :: t.2.2))
    | .err d =>
      (walkItems r.module (diags ++ [d]) rest).map
        (fun t => (t.1, t.2.1, ⟨item.typ, r.attrs, item.ident⟩ :: t.2.2))

/-- `extract_module_items` (lines 194-253): walk all declarations, then
either fail with every collected diagnostic (`Diagnostic::from_vec`,
modelled from the spec as the fail-together check) or emit one registration
statement per registry entry. The registry is emitted here in the
association-list order of this model; the source iterates a `HashMap` whose
order the code leaves unspecified. Returns `none` on a panic, otherwise the
rewritten declarations together with the outcome. -/
def extract_module_items (items : List ItemIdent) (module_name : String) :
    Option (List ItemIdent × Except (List Diagnostic) (List RegStmt)) :=
  match walkItems ⟨[]⟩ [] items with
  | none => none
  | some (m, diags, its) =>
    some (its, if diags = [] then .ok (emitAll module_name m.items) else .error diags)

/-- An item of the module body, as matched by `impl_pymodule`'s filter
(lines 270-290): functions, structs and enums are forwarded to the walker,
everything else is left untouched. -/
inductive ContentItem where
  | Fn (ident : String) (attrs : List Attribute)
  | Struct (ident : String) (attrs : List Attribute)
  | Enum (ident : String) (attrs : List Attribute)
  | Other
  deriving DecidableEq, Repr

/-- The input item of `impl_pymodule` (`syn::Item`): a module declaration
with an optional body, or any other kind of item. -/
inductive Item where
  | Mod (ident : String) (content : Option (List ContentItem)) (span : Span)
  | NotMod (span : Span)
  deriving DecidableEq, Repr

/-- Modelled from the spec: `def_to_name` (src/derive/src/util.rs, not
under src/) — "computes a default external name from a declaration
identifier and any explicit override": the explicit `name = ...` attribute
argument when given, else the declaration identifier; other argument shapes
are rejected. -/
def def_to_name (ident : String) (attrName : String) (attr : List NestedMeta) :
    Except Diagnostic String :=
  match attr with
  | [] => .ok ident
  | [.nameValue "name" v] => .ok v
  | _ => .error ⟨0, "unexpected arguments for " ++ attrName⟩

/-- The filter of `impl_pymodule` (lines 270-290): the `ItemIdent` views of
the forwarded declarations. -/
def contentToItemIdents (content : List ContentItem) : List ItemIdent :=
  content.filterMap (fun c =>
    match c with
    | .Fn ident attrs => some ⟨ItemType.Fn, attrs, ident⟩
    | .Struct ident attrs => some ⟨ItemType.Struct, attrs, ident⟩
    | .Enum ident attrs => some ⟨ItemType.Enum, attrs, ident⟩
    | .Other => none)

/-- Write the walked declarations' attribute lists back into the module
body (the source mutates the attribute lists in place through `&mut`
borrows; this model reassembles the body from the walk output). -/
def rebuildContent : List ContentItem → List ItemIdent → List ContentItem
  | [], _ => []
  | .Other :: rest, upd => .Other :: rebuildContent rest upd
  | c :: rest, [] => c :: rest
  | .Fn ident _ :: rest, u :: upd => .Fn ident u.attrs :: rebuildContent rest upd
  | .Struct ident _ :: rest, u :: upd => .Struct ident u.attrs :: rebuildContent rest upd
  | .Enum ident _ :: rest, u :: upd => .Enum ident u.attrs :: rebuildContent rest upd

/-- The successful output of `impl_pymodule` (lines 292-317): the rewritten
body plus the computed module name and the registration statements; the
three appended declarations (`MODULE_NAME`, `extend_module`, `make_module`)
are fully determined by `module_name` and `extend_mod`. -/
structure PyModuleOutput where
  ident : String
  content : List ContentItem
  module_name : String
  extend_mod : List RegStmt
  deriving DecidableEq, Repr

/-- Outcome of `impl_pymodule`: success, a diagnostic-bearing error, or a
panic (a fired kind assertion). -/
inductive PyResult where
  | ok (out : PyModuleOutput)
  | err (ds : List Diagnostic)
  | panicked
  deriving DecidableEq, Repr

/-- `impl_pymodule` (lines 255-318): reject a non-module item, resolve the
module name, reject a bodyless module, walk the body's function/struct/enum
declarations, and on success return the rewritten body together with the
emitted registration statements. On every error path the input body is
returned to the caller only as an error — no extraction output exists. -/
def impl_pymodule (attr : List NestedMeta) (item : Item) : PyResult :=
  match item with
  | .NotMod sp => .err [⟨sp, "#[pymodule] can only be on a module declaration"⟩]
  | .Mod ident content sp =>
    match def_to_name ident "pymodule" attr with
    | .error d => .err [d]
    | .ok module_name =>
      match content with
      | none => .err [⟨sp, "#[pymodule] can only be on a module declaration with body"⟩]
      | some body =>
        match extract_module_items (contentToItemIdents body) module_name with
        | none => .panicked
        | some (_, .error ds) => .err ds
        | some (its, .ok stmts) =>
          .ok ⟨ident, rebuildContent body its, module_name, stmts⟩

/-- Whether a parsed annotation's name is one the walker records as a
consumed ordinal (`pyfunction` or `pyattr`; `pyclass` and
`pystruct_sequence` are extracted without being recorded). -/
def isConsumedName (m : Meta) : Bool :=
  decide (m.getIdent = some "pyfunction") || decide (m.getIdent = some "pyattr")

/-- The ordinals of the consumed annotations in an enumerated meta
stream. -/
def consumedIdxs (ms : List (Nat × Meta × Span)) : List Nat :=
  (ms.filter (fun p => isConsumedName p.2.1)).map (fun p => p.1)

/-- Whether an attribute parses to a consumed-name annotation. -/
def attrConsumed (a : Attribute) : Bool :=
  match a.parsedMeta with
  | some m => isConsumedName m
  | none => false

/-! ## Registry lemmas -/

theorem insertKV_fst (items : List (ModuleKey × ModuleItem)) (k : ModuleKey)
    (v : ModuleItem) : (insertKV items k v).1 = lookupKV items k := by
  induction items with
  | nil => rfl
  | cons p rest ih =>
    by_cases h : p.1 = k <;> simp [insertKV, lookupKV, h, ih]

theorem lookupKV_insertKV_self (items : List (ModuleKey × ModuleItem)) (k : ModuleKey)
    (v : ModuleItem) : lookupKV (insertKV items k v).2 k = some v := by
  induction items with
  | nil => simp [insertKV, lookupKV]
  | cons p rest ih =>
    by_cases h : p.1 = k <;> simp [insertKV, lookupKV, h, ih]

theorem lookupKV_insertKV_ne (items : List (ModuleKey × ModuleItem)) (k k' : ModuleKey)
    (v : ModuleItem) (h : k' ≠ k) :
    lookupKV (insertKV items k v).2 k' = lookupKV items k' := by
  induction items with
  | nil => simp [insertKV, lookupKV, Ne.symm h]
  | cons p rest ih =>
    by_cases hp : p.1 = k
    · subst hp
      simp [insertKV, lookupKV, Ne.symm h]
    · simp [insertKV, lookupKV, hp, ih]

theorem add_item_fst (m : Module) (item : ModuleItem) (cfgs : List Meta) (span : Span) :
    (m.add_item item cfgs span).1 = ⟨(insertKV m.items (item.name, cfgs) item).2⟩ := by
  simp only [Module.add_item]
  cases (insertKV m.items (item.name, cfgs) item).1 <;> rfl

theorem add_item_snd (m : Module) (item : ModuleItem) (cfgs : List Meta) (span : Span) :
    (m.add_item item cfgs span).2 =
      match m.lookup (item.name, cfgs) with
      | some existing =>
        some ⟨span, "Duplicate #[py*] attribute on pymodule: " ++ existing.name⟩
      | none => none := by
  have hf := insertKV_fst m.items (item.name, cfgs) item
  simp only [Module.add_item, Module.lookup]
  rw [hf]
  cases lookupKV m.items (item.name, cfgs) <;> rfl

theorem add_item_lookup_self (m : Module) (item : ModuleItem) (cfgs : List Meta)
    (span : Span) :
    (m.add_item item cfgs span).1.lookup (item.name, cfgs) = some item := by
  unfold Module.lookup
  rw [add_item_fst]
  exact lookupKV_insertKV_self m.items (item.name, cfgs) item

theorem add_item_lookup_ne (m : Module) (item : ModuleItem) (cfgs : List Meta)
    (span : Span) (k : ModuleKey) (h : k ≠ (item.name, cfgs)) :
    (m.add_item item cfgs span).1.lookup k = m.lookup k := by
  unfold Module.lookup
  rw [add_item_fst]
  exact lookupKV_insertKV_ne m.items (item.name, cfgs) k item h

/-! ## C1: registry insertion fails exactly on an exact key collision -/

/-- C1: `add_item` fails if and only if the exact key (external name,
ordered guard list) is already present: with the key absent the first
insertion succeeds; a second insertion with identical name and identical
guard list fails with a diagnostic at its own site naming the previously
inserted item's external name; a second insertion with the same name but a
different guard list succeeds. The leading conjunct states the iff for an
arbitrary registry. -/
theorem add_item_key_collision (m : Module) (it1 it2 : ModuleItem)
    (cfgs cfgs' : List Meta) (sp1 sp2 sp3 : Span)
    (hname : it2.name = it1.name) (hguards : cfgs' ≠ cfgs)
    (h1 : m.lookup (it1.name, cfgs) = none)
    (h2 : m.lookup (it1.name, cfgs') = none) :
    (∀ (m' : Module) (it : ModuleItem) (cf : List Meta) (sp : Span),
      (m'.add_item it cf sp).2.isSome = (m'.lookup (it.name, cf)).isSome) ∧
    (m.add_item it1 cfgs sp1).2 = none ∧
    ((m.add_item it1 cfgs sp1).1.add_item it2 cfgs sp2).2 =
      some ⟨sp2, "Duplicate #[py*] attribute on pymodule: " ++ it1.name⟩ ∧
    ((m.add_item it1 cfgs sp1).1.add_item it2 cfgs' sp3).2 = none := by
  refine ⟨?_, ?_, ?_, ?_⟩
  · intro m' it cf sp
    rw [add_item_snd]
    cases m'.lookup (it.name, cf) <;> simp
  · rw [add_item_snd, h1]
  · rw [add_item_snd, hname, add_item_lookup_self]
  · rw [add_item_snd, hname]
    rw [add_item_lookup_ne m it1 cfgs sp1 (it1.name, cfgs')
      (fun hh => hguards (congrArg Prod.snd hh)), h2]

/-- Witness for C1: two items that both resolve to external name `"n"`,
inserted with the empty guard list and with guard list `[cfg(unix)]`. -/
theorem add_item_key_collision_witness :
    ((ModuleItem.EvaluatedAttr "g" "n").name = (ModuleItem.Function "f" "n").name ∧
      [Meta.path ["unix"]] ≠ ([] : List Meta) ∧
      (Module.mk []).lookup ((ModuleItem.Function "f" "n").name, []) = none ∧
      (Module.mk []).lookup ((ModuleItem.Function "f" "n").name, [Meta.path ["unix"]]) = none) ∧
    (((Module.mk []).add_item (.Function "f" "n") [] 0).2 = none ∧
      (((Module.mk []).add_item (.Function "f" "n") [] 0).1.add_item
        (.EvaluatedAttr "g" "n") [] 1).2 =
        some ⟨1, "Duplicate #[py*] attribute on pymodule: " ++ (ModuleItem.Function "f" "n").name⟩ ∧
      (((Module.mk []).add_item (.Function "f" "n") [] 0).1.add_item
        (.EvaluatedAttr "g" "n") [Meta.path ["unix"]] 2).2 = none) :=
  ⟨⟨by decide, by decide, by decide, by decide⟩,
    ((add_item_key_collision (Module.mk []) (.Function "f" "n") (.EvaluatedAttr "g" "n")
      [] [Meta.path ["unix"]] 0 1 2 (by decide) (by decide) (by decide) (by decide)).2)⟩

/-! ## C2: the registry is not write-once — a failed insertion overwrites -/

/-- Counterexample to C2: starting from the empty registry, insert an item
under key `("n", [])`, then offer a second, different item under the same
key. The call fails, but the key now maps to the newly offered item, not to
the previously inserted one. -/
theorem add_item_failed_call_overwrites_cex :
    (((Module.mk []).add_item (.Function "f" "n") [] 0).1.add_item
      (.EvaluatedAttr "g" "n") [] 1).2.isSome = true ∧
    (((Module.mk []).add_item (.Function "f" "n") [] 0).1.add_item
      (.EvaluatedAttr "g" "n") [] 1).1.lookup ("n", []) =
      some (.EvaluatedAttr "g" "n") ∧
    ¬((((Module.mk []).add_item (.Function "f" "n") [] 0).1.add_item
      (.EvaluatedAttr "g" "n") [] 1).1.lookup ("n", []) =
      some (.Function "f" "n")) := by
  refine ⟨by decide, by decide, by decide⟩

/-- C2 as amended: when `add_item` fails because the key is already
present, the diagnostic names the previously inserted item's external name,
but the registry state is changed by the failed call — `HashMap::insert`
replaces the binding before the duplicate is detected, so the key maps to
the newly offered item afterwards. -/
theorem add_item_overwrite_semantics (m : Module) (item existing : ModuleItem)
    (cfgs : List Meta) (sp : Span)
    (h : m.lookup (item.name, cfgs) = some existing) :
    (m.add_item item cfgs sp).2 =
      some ⟨sp, "Duplicate #[py*] attribute on pymodule: " ++ existing.name⟩ ∧
    (m.add_item item cfgs sp).1.lookup (item.name, cfgs) = some item := by
  refine ⟨?_, add_item_lookup_self m item cfgs sp⟩
  rw [add_item_snd, h]

/-- Witness for C2's amended theorem at a concrete one-entry registry. -/
theorem add_item_overwrite_semantics_witness :
    (Module.mk [(("n", []), .Function "f" "n")]).lookup
      ((ModuleItem.EvaluatedAttr "g" "n").name, []) = some (.Function "f" "n") ∧
    ((Module.mk [(("n", []), .Function "f" "n")]).add_item
      (.EvaluatedAttr "g" "n") [] 5).2 =
      some ⟨5, "Duplicate #[py*] attribute on pymodule: " ++ (ModuleItem.Function "f" "n").name⟩ ∧
    ((Module.mk [(("n", []), .Function "f" "n")]).add_item
      (.EvaluatedAttr "g" "n") [] 5).1.lookup
      ((ModuleItem.EvaluatedAttr "g" "n").name, []) = some (.EvaluatedAttr "g" "n") :=
  ⟨by decide,
    (add_item_overwrite_semantics (Module.mk [(("n", []), .Function "f" "n")])
      (.EvaluatedAttr "g" "n") (.Function "f" "n") [] 5 (by decide)).1,
    (add_item_overwrite_semantics (Module.mk [(("n", []), .Function "f" "n")])
      (.EvaluatedAttr "g" "n") (.Function "f" "n") [] 5 (by decide)).2⟩

/-! ## C8: the name/value annotation form is rejected with the right hint -/

/-- C8: for each of the four recognized binding names, an annotation in the
disallowed name/value form fails with a shape-error diagnostic whose
message recommends the parenthesized form of that same annotation kind,
while `meta_to_vec` maps the bare-name form to the empty argument list and
the parenthesized form to its argument list verbatim. -/
theorem name_value_form_rejected (ident : String) (segs : List String) (lit : String)
    (nested : List NestedMeta) :
    Module.extract_function ident (.nameValue segs lit) =
      .error ⟨0, "#[pyfunction = \"...\"] cannot be a name/value, you probably meant #[pyfunction(name = \"...\")]"⟩ ∧
    Module.extract_attr ident (.nameValue segs lit) =
      .error ⟨0, "#[pyattr = \"...\"] cannot be a name/value, you probably meant #[pyattr(name = \"...\")]"⟩ ∧
    Module.extract_class ident (.nameValue segs lit) =
      .error ⟨0, "#[pyclass = \"...\"] cannot be a name/value, you probably meant #[pyclass(name = \"...\")]"⟩ ∧
    Module.extract_struct_sequence ident (.nameValue segs lit) =
      .error ⟨0, "#[pystruct_sequence = \"...\"] cannot be a name/value, you probably meant #[pystruct_sequence(name = \"...\")]"⟩ ∧
    meta_to_vec (.path segs) = .ok [] ∧
    meta_to_vec (.list segs nested) = .ok nested :=
  ⟨rfl, rfl, rfl, rfl, rfl, rfl⟩

/-! ## C10: the entry point rejects ill-formed input at its boundary -/

/-- C10: `impl_pymodule` rejects every input item that is not a module
declaration, and every module declaration without a body, with an error
diagnostic; the error is returned before any walking, so no extraction
output, registry or rewritten body exists on these paths. -/
theorem impl_pymodule_boundary_rejects (attr : List NestedMeta) (sp : Span)
    (ident : String) :
    impl_pymodule attr (.NotMod sp) =
      .err [⟨sp, "#[pymodule] can only be on a module declaration"⟩] ∧
    ∃ ds, impl_pymodule attr (.Mod ident none sp) = .err ds := by
  refine ⟨rfl, ?_⟩
  unfold impl_pymodule
  cases h : def_to_name ident "pymodule" attr with
  | error d => exact ⟨[d], by simp [h]⟩
  | ok n =>
    exact ⟨[⟨sp, "#[pymodule] can only be on a module declaration with body"⟩], by simp [h]⟩

/-! ## Branch lemmas for the annotation-name dispatch -/

theorem classifyMeta_none (typ : ItemType) (ident : String) (m : Meta)
    (hgi : m.getIdent = none) : classifyMeta typ ident m = .skip := by
  simp [classifyMeta, hgi]

theorem classifyMeta_pyfunction (typ : ItemType) (ident : String) (m : Meta)
    (hgi : m.getIdent = some "pyfunction") :
    classifyMeta typ ident m =
      (if typ = ItemType.Fn then
        match Module.extract_function ident m with
        | .ok item => MetaAction.consume item
        | .error d => MetaAction.err d
      else MetaAction.panicked) := by
  simp [classifyMeta, hgi]

theorem classifyMeta_pyattr (typ : ItemType) (ident : String) (m : Meta)
    (hgi : m.getIdent = some "pyattr") :
    classifyMeta typ ident m =
      (if typ = ItemType.Fn then
        match Module.extract_attr ident m with
        | .ok item => MetaAction.consume item
        | .error d => MetaAction.err d
      else MetaAction.panicked) := by
  simp [classifyMeta, hgi]

theorem classifyMeta_pyclass (typ : ItemType) (ident : String) (m : Meta)
    (hgi : m.getIdent = some "pyclass") :
    classifyMeta typ ident m =
      (if typ = ItemType.Struct then
        match Module.extract_class ident m with
        | .ok item => MetaAction.classItem item
        | .error d => MetaAction.err d
      else MetaAction.panicked) := by
  simp [classifyMeta, hgi]

theorem classifyMeta_pystruct_sequence (typ : ItemType) (ident : String) (m : Meta)
    (hgi : m.getIdent = some "pystruct_sequence") :
    classifyMeta typ ident m =
      (if typ = ItemType.Struct then
        match Module.extract_struct_sequence ident m with
        | .ok item => MetaAction.classItem item
        | .error d => MetaAction.err d
      else MetaAction.panicked) := by
  simp [classifyMeta, hgi]

theorem classifyMeta_cfg (typ : ItemType) (ident : String) (m : Meta)
    (hgi : m.getIdent = some "cfg") : classifyMeta typ ident m = .guard m := by
  simp [classifyMeta, hgi]

theorem classifyMeta_other (typ : ItemType) (ident : String) (m : Meta) (name : String)
    (hgi : m.getIdent = some name)
    (h1 : name ≠ "pyfunction") (h2 : name ≠ "pyattr") (h3 : name ≠ "pyclass")
    (h4 : name ≠ "pystruct_sequence") (h5 : name ≠ "cfg") :
    classifyMeta typ ident m = .skip := by
  simp [classifyMeta, hgi, h1, h2, h3, h4, h5]

/-- Whenever the name dispatch records a consumed ordinal, the annotation
name is `pyfunction` or `pyattr`. -/
theorem classifyMeta_consume_isConsumedName (typ : ItemType) (ident : String) (m : Meta)
    (it : ModuleItem) (h : classifyMeta typ ident m = .consume it) :
    isConsumedName m = true := by
  cases hgi : m.getIdent with
  | none => rw [classifyMeta_none typ ident m hgi] at h; cases h
  | some name =>
    by_cases h1 : name = "pyfunction"
    · simp [isConsumedName, hgi, h1]
    · by_cases h2 : name = "pyattr"
      · simp [isConsumedName, hgi, h2]
      · exfalso
        by_cases h3 : name = "pyclass"
        · subst h3
          rw [classifyMeta_pyclass typ ident m hgi] at h
          by_cases ht : typ = ItemType.Struct
          · rw [if_pos ht] at h
            cases hx : Module.extract_class ident m <;> rw [hx] at h <;> simp at h
          · rw [if_neg ht] at h; cases h
        · by_cases h4 : name = "pystruct_sequence"
          · subst h4
            rw [classifyMeta_pystruct_sequence typ ident m hgi] at h
            by_cases ht : typ = ItemType.Struct
            · rw [if_pos ht] at h
              cases hx : Module.extract_struct_sequence ident m <;> rw [hx] at h <;>
                simp at h
            · rw [if_neg ht] at h; cases h
          · by_cases h5 : name = "cfg"
            · subst h5
              rw [classifyMeta_cfg typ ident m hgi] at h; cases h
            · rw [classifyMeta_other typ ident m name hgi h1 h2 h3 h4 h5] at h; cases h

/-- Conversely, an annotation named `pyfunction`/`pyattr` can only be
consumed, an annotation-level error, or a fired kind assertion. -/
theorem classifyMeta_of_isConsumedName (typ : ItemType) (ident : String) (m : Meta)
    (h : isConsumedName m = true) :
    classifyMeta typ ident m = .panicked ∨
      (∃ d, classifyMeta typ ident m = .err d) ∨
      ∃ it, classifyMeta typ ident m = .consume it := by
  have hgi : m.getIdent = some "pyfunction" ∨ m.getIdent = some "pyattr" := by
    simpa [isConsumedName, Bool.or_eq_true, decide_eq_true_eq] using h
  rcases hgi with hgi | hgi
  · rw [classifyMeta_pyfunction typ ident m hgi]
    by_cases ht : typ = ItemType.Fn
    · rw [if_pos ht]
      cases hx : Module.extract_function ident m with
      | error d => exact Or.inr (Or.inl ⟨d, rfl⟩)
      | ok it => exact Or.inr (Or.inr ⟨it, rfl⟩)
    · rw [if_neg ht]; exact Or.inl rfl
  · rw [classifyMeta_pyattr typ ident m hgi]
    by_cases ht : typ = ItemType.Fn
    · rw [if_pos ht]
      cases hx : Module.extract_attr ident m with
      | error d => exact Or.inr (Or.inl ⟨d, rfl⟩)
      | ok it => exact Or.inr (Or.inr ⟨it, rfl⟩)
    · rw [if_neg ht]; exact Or.inl rfl

/-- A non-consumed classification means the name is not
`pyfunction`/`pyattr`. -/
theorem isConsumedName_false_of_classify (typ : ItemType) (ident : String) (m : Meta)
    (h : classifyMeta typ ident m ≠ .panicked)
    (herr : ∀ d, classifyMeta typ ident m ≠ .err d)
    (hcon : ∀ it, classifyMeta typ ident m ≠ .consume it) :
    isConsumedName m = false := by
  cases hb : isConsumedName m
  · rfl
  · rcases classifyMeta_of_isConsumedName typ ident m hb with h' | ⟨d, h'⟩ | ⟨it, h'⟩
    · exact absurd h' h
    · exact absurd h' (herr d)
    · exact absurd h' (hcon it)

theorem consumedIdxs_cons (i : Nat) (m : Meta) (sp : Span)
    (rest : List (Nat × Meta × Span)) :
    consumedIdxs ((i, m, sp) :: rest) =
      if isConsumedName m then i :: consumedIdxs rest else consumedIdxs rest := by
  cases h : isConsumedName m <;> simp [consumedIdxs, List.filter_cons, h]

/-! ## Scan characterization -/

/-- A successful scan records exactly the ordinals of the
`pyfunction`/`pyattr` annotations as consumed. -/
theorem scanLoop_ok_idxs (typ : ItemType) (ident : String)
    (ms : List (Nat × Meta × Span)) :
    ∀ idxs items cfgs, scanLoop typ ident ms = .ok idxs items cfgs →
      idxs = consumedIdxs ms := by
  induction ms with
  | nil =>
    intro idxs items cfgs h
    simp only [scanLoop] at h
    cases h
    rfl
  | cons p rest ih =>
    obtain ⟨i, m, sp⟩ := p
    intro idxs items cfgs h
    simp only [scanLoop] at h
    cases hc : classifyMeta typ ident m with
    | panicked => rw [hc] at h; cases h
    | err d => rw [hc] at h; cases h
    | skip =>
      rw [hc] at h
      have hnc : isConsumedName m = false :=
        isConsumedName_false_of_classify typ ident m (by rw [hc]; intro hh; cases hh)
          (fun d => by rw [hc]; intro hh; cases hh)
          (fun it => by rw [hc]; intro hh; cases hh)
      rw [consumedIdxs_cons, hnc]
      exact ih idxs items cfgs h
    | guard g =>
      rw [hc] at h
      cases hr : scanLoop typ ident rest with
      | panicked => rw [hr] at h; cases h
      | err d => rw [hr] at h; cases h
      | ok idxs0 items0 cfgs0 =>
        rw [hr] at h
        have hnc : isConsumedName m = false :=
          isConsumedName_false_of_classify typ ident m (by rw [hc]; intro hh; cases hh)
            (fun d => by rw [hc]; intro hh; cases hh)
            (fun it => by rw [hc]; intro hh; cases hh)
        rw [consumedIdxs_cons, hnc]
        cases h
        exact ih _ _ _ hr
    | classItem it =>
      rw [hc] at h
      cases hr : scanLoop typ ident rest with
      | panicked => rw [hr] at h; cases h
      | err d => rw [hr] at h; cases h
      | ok idxs0 items0 cfgs0 =>
        rw [hr] at h
        have hnc : isConsumedName m = false :=
          isConsumedName_false_of_classify typ ident m (by rw [hc]; intro hh; cases hh)
            (fun d => by rw [hc]; intro hh; cases hh)
            (fun it0 => by rw [hc]; intro hh; cases hh)
        rw [consumedIdxs_cons, hnc]
        cases h
        exact ih _ _ _ hr
    | consume it =>
      rw [hc] at h
      cases hr : scanLoop typ ident rest with
      | panicked => rw [hr] at h; cases h
      | err d => rw [hr] at h; cases h
      | ok idxs0 items0 cfgs0 =>
        rw [hr] at h
        have hcn : isConsumedName m = true :=
          classifyMeta_consume_isConsumedName typ ident m it hc
        rw [consumedIdxs_cons, hcn]
        cases h
        rw [ih _ _ _ hr]
        simp

theorem retainDrop_nil_idxs (l : List Attribute) (i : Nat) :
    retainDrop l i [] = (l, []) := by
  induction l generalizing i with
  | nil => rfl
  | cons a rest ih => simp [retainDrop, ih]

theorem removeLoop_nil (attrs : List Attribute) : removeLoop attrs [] = attrs := rfl

/-- A panicking scan exhibits an annotation whose dispatch panicked. -/
theorem scanLoop_panicked_mem (typ : ItemType) (ident : String)
    (ms : List (Nat × Meta × Span)) (h : scanLoop typ ident ms = .panicked) :
    ∃ p ∈ ms, classifyMeta typ ident p.2.1 = .panicked := by
  induction ms with
  | nil => simp only [scanLoop] at h; cases h
  | cons p rest ih =>
    obtain ⟨i, m, sp⟩ := p
    simp only [scanLoop] at h
    cases hc : classifyMeta typ ident m with
    | panicked => exact ⟨(i, m, sp), List.mem_cons_self _ _, hc⟩
    | err d => rw [hc] at h; cases h
    | skip =>
      rw [hc] at h
      obtain ⟨q, hq, hcq⟩ := ih h
      exact ⟨q, List.mem_cons_of_mem _ hq, hcq⟩
    | guard g =>
      rw [hc] at h
      cases hr : scanLoop typ ident rest with
      | ok idxs0 items0 cfgs0 => rw [hr] at h; cases h
      | err d => rw [hr] at h; cases h
      | panicked =>
        obtain ⟨q, hq, hcq⟩ := ih hr
        exact ⟨q, List.mem_cons_of_mem _ hq, hcq⟩
    | consume it =>
      rw [hc] at h
      cases hr : scanLoop typ ident rest with
      | ok idxs0 items0 cfgs0 => rw [hr] at h; cases h
      | err d => rw [hr] at h; cases h
      | panicked =>
        obtain ⟨q, hq, hcq⟩ := ih hr
        exact ⟨q, List.mem_cons_of_mem _ hq, hcq⟩
    | classItem it =>
      rw [hc] at h
      cases hr : scanLoop typ ident rest with
      | ok idxs0 items0 cfgs0 => rw [hr] at h; cases h
      | err d => rw [hr] at h; cases h
      | panicked =>
        obtain ⟨q, hq, hcq⟩ := ih hr
        exact ⟨q, List.mem_cons_of_mem _ hq, hcq⟩

/-- A fired kind assertion means a binding annotation sat on the wrong
declaration kind. -/
theorem classifyMeta_panicked_names (typ : ItemType) (ident : String) (m : Meta)
    (h : classifyMeta typ ident m = .panicked) :
    ((m.getIdent = some "pyfunction" ∨ m.getIdent = some "pyattr") ∧
      typ ≠ ItemType.Fn) ∨
    ((m.getIdent = some "pyclass" ∨ m.getIdent = some "pystruct_sequence") ∧
      typ ≠ ItemType.Struct) := by
  cases hgi : m.getIdent with
  | none => rw [classifyMeta_none typ ident m hgi] at h; cases h
  | some name =>
    by_cases h1 : name = "pyfunction"
    · subst h1
      rw [classifyMeta_pyfunction typ ident m hgi] at h
      by_cases ht : typ = ItemType.Fn
      · rw [if_pos ht] at h
        cases hx : Module.extract_function ident m <;> rw [hx] at h <;> simp at h
      · exact Or.inl ⟨Or.inl rfl, ht⟩
    · by_cases h2 : name = "pyattr"
      · subst h2
        rw [classifyMeta_pyattr typ ident m hgi] at h
        by_cases ht : typ = ItemType.Fn
        · rw [if_pos ht] at h
          cases hx : Module.extract_attr ident m <;> rw [hx] at h <;> simp at h
        · exact Or.inl ⟨Or.inr rfl, ht⟩
      · by_cases h3 : name = "pyclass"
        · subst h3
          rw [classifyMeta_pyclass typ ident m hgi] at h
          by_cases ht : typ = ItemType.Struct
          · rw [if_pos ht] at h
            cases hx : Module.extract_class ident m <;> rw [hx] at h <;> simp at h
          · exact Or.inr ⟨Or.inl rfl, ht⟩
        · by_cases h4 : name = "pystruct_sequence"
          · subst h4
            rw [classifyMeta_pystruct_sequence typ ident m hgi] at h
            by_cases ht : typ = ItemType.Struct
            · rw [if_pos ht] at h
              cases hx : Module.extract_struct_sequence ident m <;> rw [hx] at h <;>
                simp at h
            · exact Or.inr ⟨Or.inr rfl, ht⟩
          · by_cases h5 : name = "cfg"
            · subst h5; rw [classifyMeta_cfg typ ident m hgi] at h; cases h
            · rw [classifyMeta_other typ ident m name hgi h1 h2 h3 h4 h5] at h; cases h

/-- Only struct declarations produce class items. -/
theorem classifyMeta_classItem_typ (typ : ItemType) (ident : String) (m : Meta)
    (it : ModuleItem) (h : classifyMeta typ ident m = .classItem it) :
    typ = ItemType.Struct := by
  cases hgi : m.getIdent with
  | none => rw [classifyMeta_none typ ident m hgi] at h; cases h
  | some name =>
    by_cases h3 : name = "pyclass"
    · subst h3
      rw [classifyMeta_pyclass typ ident m hgi] at h
      by_cases ht : typ = ItemType.Struct
      · exact ht
      · rw [if_neg ht] at h; cases h
    · by_cases h4 : name = "pystruct_sequence"
      · subst h4
        rw [classifyMeta_pystruct_sequence typ ident m hgi] at h
        by_cases ht : typ = ItemType.Struct
        · exact ht
        · rw [if_neg ht] at h; cases h
      · exfalso
        by_cases h1 : name = "pyfunction"
        · subst h1
          rw [classifyMeta_pyfunction typ ident m hgi] at h
          by_cases ht : typ = ItemType.Fn
          · rw [if_pos ht] at h
            cases hx : Module.extract_function ident m <;> rw [hx] at h <;> simp at h
          · rw [if_neg ht] at h; cases h
        · by_cases h2 : name = "pyattr"
          · subst h2
            rw [classifyMeta_pyattr typ ident m hgi] at h
            by_cases ht : typ = ItemType.Fn
            · rw [if_pos ht] at h
              cases hx : Module.extract_attr ident m <;> rw [hx] at h <;> simp at h
            · rw [if_neg ht] at h; cases h
          · by_cases h5 : name = "cfg"
            · subst h5; rw [classifyMeta_cfg typ ident m hgi] at h; cases h
            · rw [classifyMeta_other typ ident m name hgi h1 h2 h3 h4 h5] at h; cases h

/-- In a successful scan every annotation classified to a non-aborting
action. -/
theorem scanLoop_ok_classify_mem (typ : ItemType) (ident : String)
    (ms : List (Nat × Meta × Span)) :
    ∀ idxs items cfgs, scanLoop typ ident ms = .ok idxs items cfgs →
      ∀ p ∈ ms, (∃ it, classifyMeta typ ident p.2.1 = .consume it) ∨
        (∃ it, classifyMeta typ ident p.2.1 = .classItem it) ∨
        (∃ g, classifyMeta typ ident p.2.1 = .guard g) ∨
        classifyMeta typ ident p.2.1 = .skip := by
  induction ms with
  | nil => intro idxs items cfgs _ p hp; cases hp
  | cons q rest ih =>
    obtain ⟨i, m, sp⟩ := q
    intro idxs items cfgs h p hp
    simp only [scanLoop] at h
    rcases List.mem_cons.mp hp with hp | hp
    · subst hp
      cases hc : classifyMeta typ ident m with
      | panicked => rw [hc] at h; cases h
      | err d => rw [hc] at h; cases h
      | skip => exact Or.inr (Or.inr (Or.inr rfl))
      | guard g => exact Or.inr (Or.inr (Or.inl ⟨g, rfl⟩))
      | consume it => exact Or.inl ⟨it, rfl⟩
      | classItem it => exact Or.inr (Or.inl ⟨it, rfl⟩)
    · cases hc : classifyMeta typ ident m with
      | panicked => rw [hc] at h; cases h
      | err d => rw [hc] at h; cases h
      | skip =>
        rw [hc] at h
        exact ih _ _ _ h p hp
      | guard g =>
        rw [hc] at h
        cases hr : scanLoop typ ident rest with
        | panicked => rw [hr] at h; cases h
        | err d => rw [hr] at h; cases h
        | ok idxs0 items0 cfgs0 => exact ih _ _ _ hr p hp
      | consume it =>
        rw [hc] at h
        cases hr : scanLoop typ ident rest with
        | panicked => rw [hr] at h; cases h
        | err d => rw [hr] at h; cases h
        | ok idxs0 items0 cfgs0 => exact ih _ _ _ hr p hp
      | classItem it =>
        rw [hc] at h
        cases hr : scanLoop typ ident rest with
        | panicked => rw [hr] at h; cases h
        | err d => rw [hr] at h; cases h
        | ok idxs0 items0 cfgs0 => exact ih _ _ _ hr p hp

/-- A stream whose annotations all classify to skip or guard scans
successfully with no consumed ordinals and no items. -/
theorem scanLoop_all_skip_guard (typ : ItemType) (ident : String)
    (ms : List (Nat × Meta × Span))
    (h : ∀ p ∈ ms, classifyMeta typ ident p.2.1 = .skip ∨
      ∃ g, classifyMeta typ ident p.2.1 = .guard g) :
    ∃ cfgs, scanLoop typ ident ms = .ok [] [] cfgs := by
  induction ms with
  | nil => exact ⟨[], rfl⟩
  | cons q rest ih =>
    obtain ⟨i, m, sp⟩ := q
    obtain ⟨cfgs, hr⟩ := ih (fun p hp => h p (List.mem_cons_of_mem _ hp))
    rcases h (i, m, sp) (List.mem_cons_self _ _) with hc | ⟨g, hc⟩
    · exact ⟨cfgs, by simp only [scanLoop]; rw [hc]; exact hr⟩
    · exact ⟨g :: cfgs, by simp only [scanLoop]; rw [hc, hr]⟩

/-- Membership transport out of an enumeration. -/
theorem mem_of_mem_enumFrom {α : Type} {x : Nat × α} :
    ∀ {l : List α} {n : Nat}, x ∈ List.enumFrom n l → x.2 ∈ l := by
  intro l
  induction l with
  | nil => intro n h; cases h
  | cons a rest ih =>
    intro n h
    rcases List.mem_cons.mp h with h | h
    · subst h; exact List.mem_cons_self _ _
    · exact List.mem_cons_of_mem _ (ih h)

/-- Membership transport into an enumeration. -/
theorem mem_enumFrom_of_mem {α : Type} {a : α} :
    ∀ {l : List α} (n : Nat), a ∈ l → ∃ i, (i, a) ∈ List.enumFrom n l := by
  intro l
  induction l with
  | nil => intro n h; cases h
  | cons b rest ih =>
    intro n h
    rcases List.mem_cons.mp h with h | h
    · subst h; exact ⟨n, List.mem_cons_self _ _⟩
    · obtain ⟨i, hi⟩ := ih (n + 1) h
      exact ⟨i, List.mem_cons_of_mem _ hi⟩

theorem parsedMetas_cons_some (a : Attribute) (rest : List Attribute) (m : Meta)
    (h : a.parsedMeta = some m) :
    parsedMetas (a :: rest) = (m, a.span) :: parsedMetas rest := by
  simp [parsedMetas, List.filterMap_cons, h]

/-- Every consumed ordinal of an enumeration starting at `n` is at least
`n`. -/
theorem consumedIdxs_enumFrom_ge (l : List (Meta × Span)) :
    ∀ n, ∀ x ∈ consumedIdxs (List.enumFrom n l), n ≤ x := by
  induction l with
  | nil => intro n x hx; cases hx
  | cons p rest ih =>
    intro n x hx
    obtain ⟨m, sp⟩ := p
    rw [show List.enumFrom n ((m, sp) :: rest) = (n, m, sp) :: List.enumFrom (n + 1) rest
      from rfl, consumedIdxs_cons] at hx
    by_cases hc : isConsumedName m
    · rw [if_pos hc] at hx
      rcases List.mem_cons.mp hx with hx | hx
      · exact hx ▸ Nat.le_refl n
      · exact Nat.le_of_succ_le (ih (n + 1) x hx)
    · rw [if_neg hc] at hx
      exact Nat.le_of_succ_le (ih (n + 1) x hx)

/-- The retain loop, fed the consumed ordinals of the enumerated parsed
stream of an all-parseable attribute list, keeps exactly the non-consumed
attributes and exhausts the ordinal list. -/
theorem retainDrop_consumed (attrs : List Attribute) :
    ∀ i, (∀ a ∈ attrs, a.parsedMeta.isSome) →
      retainDrop attrs i (consumedIdxs (List.enumFrom i (parsedMetas attrs))) =
        (attrs.filter (fun a => !attrConsumed a), []) := by
  induction attrs with
  | nil => intro i _; rfl
  | cons a rest ih =>
    intro i hall
    obtain ⟨m, hm⟩ := Option.isSome_iff_exists.mp (hall a (List.mem_cons_self _ _))
    have hrest : ∀ b ∈ rest, b.parsedMeta.isSome :=
      fun b hb => hall b (List.mem_cons_of_mem _ hb)
    rw [parsedMetas_cons_some a rest m hm,
      show List.enumFrom i ((m, a.span) :: parsedMetas rest) =
        (i, m, a.span) :: List.enumFrom (i + 1) (parsedMetas rest) from rfl,
      consumedIdxs_cons]
    have hac : attrConsumed a = isConsumedName m := by
      simp [attrConsumed, hm]
    by_cases hc : isConsumedName m
    · rw [if_pos hc]
      have hhead : (i :: consumedIdxs (List.enumFrom (i + 1) (parsedMetas rest))).head? =
          some i := rfl
      simp only [retainDrop, hhead, if_pos rfl, List.tail_cons]
      rw [ih (i + 1) hrest]
      rw [List.filter_cons]
      simp [hac, hc]
    · rw [if_neg hc]
      have hne : ¬((consumedIdxs (List.enumFrom (i + 1) (parsedMetas rest))).head? =
          some i) := by
        intro hh
        cases hcl : consumedIdxs (List.enumFrom (i + 1) (parsedMetas rest)) with
        | nil => rw [hcl] at hh; cases hh
        | cons x xs =>
          rw [hcl] at hh
          have hx : x ∈ consumedIdxs (List.enumFrom (i + 1) (parsedMetas rest)) := by
            rw [hcl]; exact List.mem_cons_self _ _
          have := consumedIdxs_enumFrom_ge (parsedMetas rest) (i + 1) x hx
          have hxi : x = i := by injection hh
          omega
      simp only [retainDrop, if_neg hne]
      rw [ih (i + 1) hrest]
      rw [List.filter_cons]
      simp [hac, hc]

/-! ## Unfolding lemmas for `extract_item_from_syn` -/

theorem extract_eq_of_scan_err (m : Module) (item : ItemIdent) (d : Diagnostic)
    (h : scanItem item = .err d) :
    Module.extract_item_from_syn m item = ⟨.err d, m, item.attrs⟩ := by
  unfold Module.extract_item_from_syn
  rw [h]

theorem extract_eq_of_scan_panicked (m : Module) (item : ItemIdent)
    (h : scanItem item = .panicked) :
    Module.extract_item_from_syn m item = ⟨.panicked, m, item.attrs⟩ := by
  unfold Module.extract_item_from_syn
  rw [h]

theorem extract_eq_of_scan_ok (m : Module) (item : ItemIdent) (idxs : List Nat)
    (items : List (ModuleItem × Span)) (cfgs : List Meta)
    (h : scanItem item = .ok idxs items cfgs) :
    Module.extract_item_from_syn m item =
      (match (addLoop m cfgs items).2 with
       | some d => ⟨.err d, (addLoop m cfgs items).1, item.attrs⟩
       | none => ⟨.ok, (addLoop m cfgs items).1,
           removeLoop (retainDrop item.attrs 0 idxs).1 (retainDrop item.attrs 0 idxs).2⟩) := by
  unfold Module.extract_item_from_syn
  rw [h]

/-! ## C4: only pyfunction/pyattr annotations are consumed and stripped -/

/-- C4 as amended: for every declaration, the ordinals recorded as consumed
by a successful scan are exactly those of the `pyfunction`/`pyattr`
annotations in the enumerated (parse-filtered) annotation stream — so
class-binding and struct-sequence annotations are never recorded as
consumed even when they successfully yield items, and a declaration with no
consumed ordinals keeps its attribute list completely unchanged. -/
theorem consumed_ordinals_are_fn_attr_only (item : ItemIdent) (m : Module)
    (idxs : List Nat) (items : List (ModuleItem × Span)) (cfgs : List Meta)
    (h : scanItem item = .ok idxs items cfgs) :
    idxs = consumedIdxs (parsedMetas item.attrs).enum ∧
    (idxs = [] → (Module.extract_item_from_syn m item).attrs = item.attrs) := by
  constructor
  · exact scanLoop_ok_idxs item.typ item.ident (parsedMetas item.attrs).enum idxs items cfgs h
  · intro hnil
    subst hnil
    rw [extract_eq_of_scan_ok m item [] items cfgs h]
    cases ha : (addLoop m cfgs items).2 with
    | some d => rfl
    | none =>
      rw [retainDrop_nil_idxs]
      rfl

/-- Witness for C4's amended theorem: a struct declaration carrying a
`pyclass` annotation and a `cfg` guard; the scan succeeds with an extracted
item, the consumed-ordinal list is empty, and the attribute list survives
extraction unchanged. -/
theorem consumed_ordinals_are_fn_attr_only_witness :
    scanItem ⟨ItemType.Struct, [⟨some (.path ["pyclass"]), 0⟩,
        ⟨some (.path ["cfg"]), 1⟩], "S"⟩ =
      .ok [] [(.Class "S" "S", 0)] [.path ["cfg"]] ∧
    (([] : List Nat) =
      consumedIdxs (parsedMetas [⟨some (.path ["pyclass"]), 0⟩,
        ⟨some (.path ["cfg"]), 1⟩]).enum ∧
    (([] : List Nat) = [] →
      (Module.extract_item_from_syn ⟨[]⟩ ⟨ItemType.Struct,
        [⟨some (.path ["pyclass"]), 0⟩, ⟨some (.path ["cfg"]), 1⟩], "S"⟩).attrs =
        [⟨some (.path ["pyclass"]), 0⟩, ⟨some (.path ["cfg"]), 1⟩])) :=
  ⟨by decide,
    consumed_ordinals_are_fn_attr_only
      ⟨ItemType.Struct, [⟨some (.path ["pyclass"]), 0⟩, ⟨some (.path ["cfg"]), 1⟩], "S"⟩
      ⟨[]⟩ [] [(.Class "S" "S", 0)] [.path ["cfg"]] (by decide)⟩

/-! ## C3: an annotation-level error aborts the whole declaration -/

/-- C3 as amended: an annotation-level error aborts extraction for the
whole declaration carrying it — no item from that declaration is inserted
(the registry passes through unchanged), its annotation list is not
stripped, and only the first such error on that declaration is reported —
while the walk continues past it: two declarations that each trigger an
annotation-level error contribute their two diagnostics jointly and the
whole operation fails with both. -/
theorem annotation_error_aborts_declaration (d1 d2 : ItemIdent) (e1 e2 : Diagnostic)
    (name : String) (h1 : scanItem d1 = .err e1) (h2 : scanItem d2 = .err e2) :
    (∀ m : Module, Module.extract_item_from_syn m d1 = ⟨.err e1, m, d1.attrs⟩) ∧
    extract_module_items [d1, d2] name = some ([d1, d2], .error [e1, e2]) := by
  refine ⟨fun m => extract_eq_of_scan_err m d1 e1 h1, ?_⟩
  have w2 : walkItems ⟨[]⟩ [e1] [d2] = some (⟨[]⟩, [e1, e2], [d2]) := by
    unfold walkItems
    rw [extract_eq_of_scan_err ⟨[]⟩ d2 e2 h2]
    rfl
  have w : walkItems ⟨[]⟩ [] [d1, d2] = some (⟨[]⟩, [e1, e2], [d1, d2]) := by
    unfold walkItems
    rw [extract_eq_of_scan_err ⟨[]⟩ d1 e1 h1]
    show Option.map
        (fun t => (t.1, t.2.1, (⟨d1.typ, d1.attrs, d1.ident⟩ : ItemIdent) :: t.2.2))
        (walkItems ⟨[]⟩ [e1] [d2]) = some (⟨[]⟩, [e1, e2], [d1, d2])
    rw [w2]
    rfl
  unfold extract_module_items
  rw [w]
  rfl

/-- Witness for C3's amended theorem: two function declarations, each
carrying one name/value binding annotation. -/
theorem annotation_error_aborts_declaration_witness :
    scanItem ⟨ItemType.Fn, [⟨some (.nameValue ["pyfunction"] "v"), 3⟩], "a"⟩ =
      .err ⟨0, "#[pyfunction = \"...\"] cannot be a name/value, you probably meant #[pyfunction(name = \"...\")]"⟩ ∧
    scanItem ⟨ItemType.Fn, [⟨some (.nameValue ["pyattr"] "w"), 4⟩], "b"⟩ =
      .err ⟨0, "#[pyattr = \"...\"] cannot be a name/value, you probably meant #[pyattr(name = \"...\")]"⟩ ∧
    Module.extract_item_from_syn ⟨[]⟩
        ⟨ItemType.Fn, [⟨some (.nameValue ["pyfunction"] "v"), 3⟩], "a"⟩ =
      ⟨.err ⟨0, "#[pyfunction = \"...\"] cannot be a name/value, you probably meant #[pyfunction(name = \"...\")]"⟩,
        ⟨[]⟩, [⟨some (.nameValue ["pyfunction"] "v"), 3⟩]⟩ ∧
    extract_module_items
        [⟨ItemType.Fn, [⟨some (.nameValue ["pyfunction"] "v"), 3⟩], "a"⟩,
         ⟨ItemType.Fn, [⟨some (.nameValue ["pyattr"] "w"), 4⟩], "b"⟩] "mod" =
      some ([⟨ItemType.Fn, [⟨some (.nameValue ["pyfunction"] "v"), 3⟩], "a"⟩,
         ⟨ItemType.Fn, [⟨some (.nameValue ["pyattr"] "w"), 4⟩], "b"⟩],
        .error [⟨0, "#[pyfunction = \"...\"] cannot be a name/value, you probably meant #[pyfunction(name = \"...\")]"⟩,
          ⟨0, "#[pyattr = \"...\"] cannot be a name/value, you probably meant #[pyattr(name = \"...\")]"⟩]) := by
  refine ⟨by decide, by decide, ?_, ?_⟩
  · exact (annotation_error_aborts_declaration
      ⟨ItemType.Fn, [⟨some (.nameValue ["pyfunction"] "v"), 3⟩], "a"⟩
      ⟨ItemType.Fn, [⟨some (.nameValue ["pyattr"] "w"), 4⟩], "b"⟩
      ⟨0, "#[pyfunction = \"...\"] cannot be a name/value, you probably meant #[pyfunction(name = \"...\")]"⟩
      ⟨0, "#[pyattr = \"...\"] cannot be a name/value, you probably meant #[pyattr(name = \"...\")]"⟩
      "mod" (by decide) (by decide)).1 ⟨[]⟩
  · exact (annotation_error_aborts_declaration
      ⟨ItemType.Fn, [⟨some (.nameValue ["pyfunction"] "v"), 3⟩], "a"⟩
      ⟨ItemType.Fn, [⟨some (.nameValue ["pyattr"] "w"), 4⟩], "b"⟩
      ⟨0, "#[pyfunction = \"...\"] cannot be a name/value, you probably meant #[pyfunction(name = \"...\")]"⟩
      ⟨0, "#[pyattr = \"...\"] cannot be a name/value, you probably meant #[pyattr(name = \"...\")]"⟩
      "mod" (by decide) (by decide)).2

/-! ## C7: kind assertions and kind alignment -/

/-- C7 as amended: the driver forwards function, struct and enum
declarations without aligning annotation kinds with declaration kinds, so
the kind assertions are only guaranteed not to fire on kind-aligned
declarations: if every parsed `pyfunction`/`pyattr` annotation sits on a
function declaration and every `pyclass`/`pystruct_sequence` annotation
sits on a struct declaration, extraction cannot panic; the accompanying
counterexample shows a `pyclass` annotation on a forwarded enum makes the
assertion fire. -/
theorem kind_aligned_no_panic (item : ItemIdent) (m : Module)
    (hfn : ∀ p ∈ parsedMetas item.attrs,
      (p.1.getIdent = some "pyfunction" ∨ p.1.getIdent = some "pyattr") →
        item.typ = ItemType.Fn)
    (hst : ∀ p ∈ parsedMetas item.attrs,
      (p.1.getIdent = some "pyclass" ∨ p.1.getIdent = some "pystruct_sequence") →
        item.typ = ItemType.Struct) :
    (Module.extract_item_from_syn m item).status ≠ .panicked := by
  cases hs : scanItem item with
  | err d =>
    rw [extract_eq_of_scan_err m item d hs]
    intro hh
    cases hh
  | ok idxs items cfgs =>
    rw [extract_eq_of_scan_ok m item idxs items cfgs hs]
    cases ha : (addLoop m cfgs items).2 <;> intro hh <;> cases hh
  | panicked =>
    exfalso
    obtain ⟨p, hp, hcp⟩ := scanLoop_panicked_mem item.typ item.ident _ hs
    have hmem : p.2 ∈ parsedMetas item.attrs :=
      mem_of_mem_enumFrom (show p ∈ List.enumFrom 0 (parsedMetas item.attrs) from hp)
    rcases classifyMeta_panicked_names item.typ item.ident p.2.1 hcp with
      ⟨hn, hty⟩ | ⟨hn, hty⟩
    · exact hty (hfn p.2 hmem hn)
    · exact hty (hst p.2 hmem hn)

/-- Witness for C7's amended theorem: a function declaration carrying a
`pyfunction` annotation and a `cfg` guard is kind-aligned, and its
extraction does not panic. -/
theorem kind_aligned_no_panic_witness :
    (∀ p ∈ parsedMetas [⟨some (Meta.path ["pyfunction"]), 0⟩, ⟨some (Meta.path ["cfg"]), 1⟩],
      (p.1.getIdent = some "pyfunction" ∨ p.1.getIdent = some "pyattr") →
        (⟨ItemType.Fn, [⟨some (Meta.path ["pyfunction"]), 0⟩,
          ⟨some (Meta.path ["cfg"]), 1⟩], "f"⟩ : ItemIdent).typ = ItemType.Fn) ∧
    (∀ p ∈ parsedMetas [⟨some (Meta.path ["pyfunction"]), 0⟩, ⟨some (Meta.path ["cfg"]), 1⟩],
      (p.1.getIdent = some "pyclass" ∨ p.1.getIdent = some "pystruct_sequence") →
        (⟨ItemType.Fn, [⟨some (Meta.path ["pyfunction"]), 0⟩,
          ⟨some (Meta.path ["cfg"]), 1⟩], "f"⟩ : ItemIdent).typ = ItemType.Struct) ∧
    (Module.extract_item_from_syn ⟨[]⟩
      ⟨ItemType.Fn, [⟨some (Meta.path ["pyfunction"]), 0⟩,
        ⟨some (Meta.path ["cfg"]), 1⟩], "f"⟩).status ≠ .panicked :=
  ⟨by decide, by decide,
    kind_aligned_no_panic
      ⟨ItemType.Fn, [⟨some (Meta.path ["pyfunction"]), 0⟩,
        ⟨some (Meta.path ["cfg"]), 1⟩], "f"⟩ ⟨[]⟩ (by decide) (by decide)⟩

/-! ## C6: idempotence of extraction-and-stripping -/

/-- C6 as amended: extraction-and-stripping is idempotent for function
declarations whose attributes all parse as structured annotations — a
second run on the declaration as left by a successful first run extracts
zero items, inserts nothing into the registry, and leaves the remaining
annotation list unchanged and in the same order. (It fails for struct
declarations, whose class/struct-sequence annotations are never stripped
and are re-extracted by every run, and for declarations with unparseable
attributes, where stripping removes the wrong attribute.) -/
theorem extraction_idempotent_on_functions (item : ItemIdent) (m m' : Module)
    (htyp : item.typ = ItemType.Fn)
    (hall : ∀ a ∈ item.attrs, a.parsedMeta.isSome)
    (hok : (Module.extract_item_from_syn m item).status = .ok) :
    Module.extract_item_from_syn m'
        ⟨item.typ, (Module.extract_item_from_syn m item).attrs, item.ident⟩ =
      ⟨.ok, m', (Module.extract_item_from_syn m item).attrs⟩ := by
  cases hs : scanItem item with
  | err d => rw [extract_eq_of_scan_err m item d hs] at hok; simp at hok
  | panicked => rw [extract_eq_of_scan_panicked m item hs] at hok; simp at hok
  | ok idxs items cfgs =>
    have hext := extract_eq_of_scan_ok m item idxs items cfgs hs
    cases ha : (addLoop m cfgs items).2 with
    | some d => rw [hext, ha] at hok; simp at hok
    | none =>
      have hidxs : idxs = consumedIdxs (parsedMetas item.attrs).enum :=
        scanLoop_ok_idxs item.typ item.ident _ idxs items cfgs hs
      have hretain : retainDrop item.attrs 0 idxs =
          (item.attrs.filter (fun a => !attrConsumed a), []) := by
        rw [hidxs]
        exact retainDrop_consumed item.attrs 0 hall
      have hattrs : (Module.extract_item_from_syn m item).attrs =
          item.attrs.filter (fun a => !attrConsumed a) := by
        rw [hext, ha, hretain]
        rfl
      have hclass : ∀ p ∈ (parsedMetas (item.attrs.filter (fun a => !attrConsumed a))).enum,
          classifyMeta item.typ item.ident p.2.1 = .skip ∨
            ∃ g, classifyMeta item.typ item.ident p.2.1 = .guard g := by
        intro p hp
        have hmem : p.2 ∈ parsedMetas (item.attrs.filter (fun a => !attrConsumed a)) :=
          mem_of_mem_enumFrom
            (show p ∈ List.enumFrom 0
              (parsedMetas (item.attrs.filter (fun a => !attrConsumed a))) from hp)
        obtain ⟨a, ha1, ha2⟩ := List.mem_filterMap.mp hmem
        obtain ⟨m0, hm0, hmap⟩ := Option.map_eq_some'.mp ha2
        have hfa := List.mem_filter.mp ha1
        have hnc : isConsumedName m0 = false := by
          have hcf : attrConsumed a = false := by simpa using hfa.2
          simpa [attrConsumed, hm0] using hcf
        have hp21 : p.2.1 = m0 := by rw [← hmap]
        have hmem0 : (m0, a.span) ∈ parsedMetas item.attrs :=
          List.mem_filterMap.mpr ⟨a, hfa.1, by rw [hm0]; rfl⟩
        obtain ⟨j, hj⟩ := mem_enumFrom_of_mem 0 hmem0
        have hcl := scanLoop_ok_classify_mem item.typ item.ident
          (parsedMetas item.attrs).enum idxs items cfgs hs (j, m0, a.span) hj
        rcases hcl with ⟨it, hcon⟩ | ⟨it, hci⟩ | ⟨g, hg⟩ | hskip
        · exfalso
          have hcn := classifyMeta_consume_isConsumedName item.typ item.ident m0 it hcon
          rw [hnc] at hcn
          cases hcn
        · exfalso
          have hty := classifyMeta_classItem_typ item.typ item.ident m0 it hci
          rw [htyp] at hty
          cases hty
        · exact Or.inr ⟨g, by rw [hp21]; exact hg⟩
        · exact Or.inl (by rw [hp21]; exact hskip)
      obtain ⟨cfgs2, hs2⟩ := scanLoop_all_skip_guard item.typ item.ident
        (parsedMetas (item.attrs.filter (fun a => !attrConsumed a))).enum hclass
      have hs2' : scanItem
          ⟨item.typ, item.attrs.filter (fun a => !attrConsumed a), item.ident⟩ =
          .ok [] [] cfgs2 := hs2
      rw [hattrs]
      rw [extract_eq_of_scan_ok m' _ [] [] cfgs2 hs2']
      rw [retainDrop_nil_idxs]
      rfl

/-- Witness for C6's amended theorem: a function declaration with a
`pyfunction` annotation and a `cfg` guard, both parseable; the second run
over the stripped declaration is the identity on the registry and the
attribute list. -/
theorem extraction_idempotent_on_functions_witness :
    ((⟨ItemType.Fn, [⟨some (Meta.path ["pyfunction"]), 0⟩,
        ⟨some (Meta.path ["cfg"]), 1⟩], "f"⟩ : ItemIdent).typ = ItemType.Fn) ∧
    (∀ a ∈ (⟨ItemType.Fn, [⟨some (Meta.path ["pyfunction"]), 0⟩,
        ⟨some (Meta.path ["cfg"]), 1⟩], "f"⟩ : ItemIdent).attrs, a.parsedMeta.isSome) ∧
    ((Module.extract_item_from_syn ⟨[]⟩
      ⟨ItemType.Fn, [⟨some (Meta.path ["pyfunction"]), 0⟩,
        ⟨some (Meta.path ["cfg"]), 1⟩], "f"⟩).status = .ok) ∧
    Module.extract_item_from_syn ⟨[]⟩
        ⟨ItemType.Fn,
          (Module.extract_item_from_syn ⟨[]⟩
            ⟨ItemType.Fn, [⟨some (Meta.path ["pyfunction"]), 0⟩,
              ⟨some (Meta.path ["cfg"]), 1⟩], "f"⟩).attrs, "f"⟩ =
      ⟨.ok, ⟨[]⟩,
        (Module.extract_item_from_syn ⟨[]⟩
          ⟨ItemType.Fn, [⟨some (Meta.path ["pyfunction"]), 0⟩,
            ⟨some (Meta.path ["cfg"]), 1⟩], "f"⟩).attrs⟩ :=
  ⟨rfl, by decide, by decide,
    extraction_idempotent_on_functions
      ⟨ItemType.Fn, [⟨some (Meta.path ["pyfunction"]), 0⟩,
        ⟨some (Meta.path ["cfg"]), 1⟩], "f"⟩ ⟨[]⟩ ⟨[]⟩ rfl (by decide) (by decide)⟩

/-! ## Closed evaluations refuting C3, C4, C5, C6, C7 and supporting C9 -/

/-- Counterexample to C3: on a function declaration carrying a name/value
`pyfunction` annotation (an annotation-level error) followed by a
well-formed `pyfunction` annotation, the error aborts extraction for the
whole declaration: the call returns an error, the registry stays empty (the
well-formed annotation is not extracted or inserted), and a declaration
with two erroring annotations contributes exactly one diagnostic, not
two. -/
theorem annotation_error_not_isolated_cex :
    (Module.extract_item_from_syn ⟨[]⟩
      ⟨ItemType.Fn, [⟨some (.nameValue ["pyfunction"] "x"), 0⟩,
        ⟨some (.path ["pyfunction"]), 1⟩], "f"⟩).module = ⟨[]⟩ ∧
    (Module.extract_item_from_syn ⟨[]⟩
      ⟨ItemType.Fn, [⟨some (.nameValue ["pyfunction"] "x"), 0⟩,
        ⟨some (.path ["pyfunction"]), 1⟩], "f"⟩).status ≠ .ok ∧
    (extract_module_items
      [⟨ItemType.Fn, [⟨some (.nameValue ["pyfunction"] "x"), 0⟩,
        ⟨some (.nameValue ["pyattr"] "y"), 1⟩], "g"⟩] "m").map (fun r =>
        match r.2 with
        | .error ds => ds.length
        | .ok _ => 0) = some 1 := by
  refine ⟨by decide, by decide, by decide⟩

/-- Counterexample to C4: a `pyclass` annotation on a struct declaration
successfully yields an item (it is inserted into the registry), yet it is
not recorded as consumed — the attribute list still contains it after
extraction, unlike `pyfunction`/`pyattr` annotations. -/
theorem pyclass_not_stripped_cex :
    Module.extract_item_from_syn ⟨[]⟩
      ⟨ItemType.Struct, [⟨some (.path ["pyclass"]), 0⟩], "S"⟩ =
      ⟨.ok, ⟨[(("S", []), .Class "S" "S")]⟩, [⟨some (.path ["pyclass"]), 0⟩]⟩ := by
  decide

/-- C5 evaluated at the failing input: a function declaration whose
attribute list is an unparseable attribute followed by a `#[pyfunction]`
attribute. The consumed ordinal is computed in the parse-filtered
enumeration (position 0) but removal is positional in the full attribute
list, so the call removes the unrelated unparseable attribute and keeps the
consumed `pyfunction` attribute. -/
theorem strip_misindexes_unparseable_cex :
    Module.extract_item_from_syn ⟨[]⟩
      ⟨ItemType.Fn, [⟨none, 7⟩, ⟨some (.path ["pyfunction"]), 8⟩], "f"⟩ =
      ⟨.ok, ⟨[(("f", []), .Function "f" "f")]⟩, [⟨some (.path ["pyfunction"]), 8⟩]⟩ := by
  decide

/-- Counterexample to C6: a struct declaration with one `pyclass`
annotation. The first run leaves the annotation list unchanged (so the
declaration "as left by a first run" is the same declaration), and a second
run extracts one item again instead of zero. -/
theorem reextraction_not_idempotent_cex :
    (Module.extract_item_from_syn ⟨[]⟩
      ⟨ItemType.Struct, [⟨some (.path ["pyclass"]), 0⟩], "S"⟩).attrs =
      [⟨some (.path ["pyclass"]), 0⟩] ∧
    (Module.extract_item_from_syn ⟨[]⟩
      ⟨ItemType.Struct,
        (Module.extract_item_from_syn ⟨[]⟩
          ⟨ItemType.Struct, [⟨some (.path ["pyclass"]), 0⟩], "S"⟩).attrs,
        "S"⟩).module.items.length = 1 := by
  refine ⟨by decide, by decide⟩

/-- Counterexample to C7: the driver forwards enum declarations to the
walker, and a `pyclass` annotation on an enum reaches the
`assert!(item.typ == ItemType::Struct)` assertion, which fires (the whole
invocation panics). -/
theorem kind_assertion_fires_cex :
    impl_pymodule [] (.Mod "m" (some [.Enum "E" [⟨some (.path ["pyclass"]), 0⟩]]) 0) =
      .panicked := by
  decide

/-- C9 evaluated at the failing input: a module body with two guard-free
`pyfunction` declarations `fa` and `fb`. The walk produces a registry with
exactly those two entries, and emission output differs between two
enumerations of that registry that are permutations of one another — so the
emitted code is determined only once an iteration order is fixed, which the
source's `HashMap` does not fix across runs. -/
theorem emission_depends_on_iteration_order :
    (walkItems ⟨[]⟩ []
      [⟨ItemType.Fn, [⟨some (.path ["pyfunction"]), 0⟩], "fa"⟩,
       ⟨ItemType.Fn, [⟨some (.path ["pyfunction"]), 1⟩], "fb"⟩]).map (fun t => t.1.items) =
      some [(("fa", []), .Function "fa" "fa"), (("fb", []), .Function "fb" "fb")] ∧
    List.Perm
      ([(("fb", []), ModuleItem.Function "fb" "fb"),
        (("fa", []), ModuleItem.Function "fa" "fa")] : List (ModuleKey × ModuleItem))
      ([(("fa", []), ModuleItem.Function "fa" "fa"),
        (("fb", []), ModuleItem.Function "fb" "fb")] : List (ModuleKey × ModuleItem)) ∧
    emitAll "m" [(("fa", []), .Function "fa" "fa"), (("fb", []), .Function "fb" "fb")] ≠
      emitAll "m" [(("fb", []), .Function "fb" "fb"), (("fa", []), .Function "fa" "fa")] := by
  refine ⟨by decide, List.Perm.swap _ _ _, by decide⟩

end PyModule
